import Mathlib

/-!
Shallow embedding of the CloseNotice news/sentiment pipeline core:
`GroqClient` (src/src/analysis/groq_client.py), `FinnhubClient`
(src/src/data/finnhub_client.py) and the orchestrator
(src/src/main.py), together with theorems checking the specification's
claims about them.

Python values that flow through the JSON layer are modelled by `PyVal`
(strings, integers, booleans, None, lists, dicts).  Machine-level
floats are not needed by any claim and are left out of the model.
-/

/-- Model of a Python value as produced by `json.loads` and consumed by
`GroqClient._validate_result`.  Dicts are association lists in insertion
order, matching Python dict semantics. -/
inductive PyVal where
  | pyStr (s : String)
  | pyInt (n : Int)
  | pyBool (b : Bool)
  | pyNone
  | pyList (xs : List PyVal)
  | pyDict (kvs : List (String × PyVal))
  deriving Repr

/-- Structural equality on `PyVal` (model of Python `==` restricted to the
shapes we carry). -/
def PyVal.beq : PyVal → PyVal → Bool
  | .pyStr a, .pyStr b => a == b
  | .pyInt a, .pyInt b => a == b
  | .pyBool a, .pyBool b => a == b
  | .pyNone, .pyNone => true
  | .pyList xs, .pyList ys =>
      match xs, ys with
      | [], [] => true
      | x :: xs, y :: ys => PyVal.beq x y && PyVal.beq (.pyList xs) (.pyList ys)
      | _, _ => false
  | .pyDict xs, .pyDict ys =>
      match xs, ys with
      | [], [] => true
      | (k, x) :: xs, (l, y) :: ys =>
          k == l && PyVal.beq x y && PyVal.beq (.pyDict xs) (.pyDict ys)
      | _, _ => false
  | _, _ => false

instance : BEq PyVal := ⟨PyVal.beq⟩

/-- Python `dict` lookup: `d.get(k)` / `d[k]` over an association list in
insertion order (first binding wins, as later assignments are modelled by
`dictSet` which updates in place). -/
def dictGet (kvs : List (String × PyVal)) (k : String) : Option PyVal :=
  match kvs with
  | [] => none
  | (k', v) :: rest => if k' = k then some v else dictGet rest k

/-- Python `k in d`. -/
def dictHas (kvs : List (String × PyVal)) (k : String) : Bool :=
  (dictGet kvs k).isSome

/-- Python `d[k] = v`: update the existing binding in place, or append. -/
def dictSet (kvs : List (String × PyVal)) (k : String) (v : PyVal) :
    List (String × PyVal) :=
  match kvs with
  | [] => [(k, v)]
  | (k', v') :: rest =>
      if k' = k then (k', v) :: rest else (k', v') :: dictSet rest k v

/-- Python `d.get(k, default)`. -/
def dictGetD (kvs : List (String × PyVal)) (k : String) (d : PyVal) : PyVal :=
  (dictGet kvs k).getD d

/-- Characters accepted by Python `int(str)` as spacing around the number. -/
def isPySpace (c : Char) : Bool :=
  c = ' ' || c = '\t' || c = '\n' || c = '\r' || c = '\x0c' || c = '\x0b'

/-- Digits of a decimal string, `none` when some character is not a digit
or the string is empty. -/
def digitsToNat : List Char → Option Nat
  | [] => none
  | cs => cs.foldl (fun acc c =>
      match acc with
      | none => none
      | some n => if c.isDigit then some (n * 10 + (c.toNat - '0'.toNat)) else none)
      (some 0)

/-- Model of Python `int(x)`: `int` is returned unchanged, `bool` maps to
0/1, a string is parsed as an optionally signed decimal integer with
surrounding whitespace; everything else (None, list, dict) raises
`TypeError`, and a non-numeric string raises `ValueError` — both modelled
as `none`. -/
def pyIntCoerce : PyVal → Option Int
  | .pyInt n => some n
  | .pyBool b => some (if b then 1 else 0)
  | .pyStr s =>
      let core := (s.toList.dropWhile isPySpace).reverse.dropWhile isPySpace |>.reverse
      match core with
      | '-' :: ds => (digitsToNat ds).map (fun n => -(n : Int))
      | '+' :: ds => (digitsToNat ds).map (fun n => (n : Int))
      | ds => (digitsToNat ds).map (fun n => (n : Int))
  | _ => none

/-- The outcomes of `GroqClient._validate_result` other than success:
each constructor is one of the `raise ValueError(...)` sites, carrying the
data interpolated into the message. -/
inductive ValidationError where
  | missingFields (fields : List String)
  | invalidScore (raw : Option PyVal)
  | badInsights
  | badRationale
  deriving Repr

/-- Required fields checked first by `_validate_result`. -/
def requiredFields : List String :=
  ["ticker", "sentiment_score", "top_insights", "rationale"]

/-- Model of `GroqClient._validate_result` (groq_client.py lines 137-169).
Steps, in source order:
1. collect missing required fields and fail listing exactly them;
2. coerce `sentiment_score` with `int(...)`, require 1 ≤ score ≤ 10,
   store the coerced value; a coercion failure or out-of-range score both
   surface as `Invalid sentiment_score: {raw}` with the raw value
   (the in-range check raises inside the same `try`, so its ValueError is
   caught and rewrapped with the raw value);
3. `top_insights` must be a non-empty list, truncated to the first 3;
4. `rationale` must be a string of length ≥ 20. -/
def validateResult (result : List (String × PyVal)) :
    Except ValidationError (List (String × PyVal)) :=
  let missing := requiredFields.filter (fun f => !dictHas result f)
  if missing ≠ [] then .error (.missingFields missing)
  else
    match pyIntCoerce ((dictGet result "sentiment_score").getD .pyNone) with
    | none => .error (.invalidScore (dictGet result "sentiment_score"))
    | some score =>
      if !(1 ≤ score ∧ score ≤ 10) then
        .error (.invalidScore (dictGet result "sentiment_score"))
      else
        let result := dictSet result "sentiment_score" (.pyInt score)
        match dictGetD result "top_insights" (.pyList []) with
        | .pyList insights =>
          if insights.length = 0 then .error .badInsights
          else
            let result := dictSet result "top_insights" (.pyList (insights.take 3))
            match dictGetD result "rationale" (.pyStr "") with
            | .pyStr rationale =>
                if rationale.length < 20 then .error .badRationale
                else .ok result
            | _ => .error .badRationale
        | _ => .error .badInsights

/-! ## JSON extraction: `GroqClient.parse_llm_response` -/

/-- JSON whitespace (RFC 8259), skipped between tokens by `json.loads`. -/
def isJsonWs (c : Char) : Bool :=
  c = ' ' || c = '\t' || c = '\n' || c = '\r'

/-- Skip JSON whitespace. -/
def skipWs (cs : List Char) : List Char := cs.dropWhile isJsonWs

/-- Value of one hex digit. -/
def hexVal (c : Char) : Option Nat :=
  if c.isDigit then some (c.toNat - '0'.toNat)
  else if 'a' ≤ c ∧ c ≤ 'f' then some (c.toNat - 'a'.toNat + 10)
  else if 'A' ≤ c ∧ c ≤ 'F' then some (c.toNat - 'A'.toNat + 10)
  else none

/-- Scan the body of a JSON string literal (after the opening quote),
handling the escape sequences of RFC 8259.  `acc` is the reversed
content read so far. -/
def scanJsonStr : Nat → List Char → List Char → Option (String × List Char)
  | 0, _, _ => none
  | _ + 1, _, [] => none
  | fuel + 1, acc, c :: rest =>
    if c = '"' then some (String.mk acc.reverse, rest)
    else if c = '\\' then
      match rest with
      | [] => none
      | e :: rest2 =>
        if e = '"' then scanJsonStr fuel ('"' :: acc) rest2
        else if e = '\\' then scanJsonStr fuel ('\\' :: acc) rest2
        else if e = '/' then scanJsonStr fuel ('/' :: acc) rest2
        else if e = 'b' then scanJsonStr fuel ('\x08' :: acc) rest2
        else if e = 'f' then scanJsonStr fuel ('\x0c' :: acc) rest2
        else if e = 'n' then scanJsonStr fuel ('\n' :: acc) rest2
        else if e = 'r' then scanJsonStr fuel ('\r' :: acc) rest2
        else if e = 't' then scanJsonStr fuel ('\t' :: acc) rest2
        else if e = 'u' then
          match rest2 with
          | h1 :: h2 :: h3 :: h4 :: rest3 =>
            match hexVal h1, hexVal h2, hexVal h3, hexVal h4 with
            | some a, some b, some c, some d =>
                scanJsonStr fuel
                  (Char.ofNat (((a * 16 + b) * 16 + c) * 16 + d) :: acc) rest3
            | _, _, _, _ => none
          | _ => none
        else none
    else scanJsonStr fuel (c :: acc) rest

/-- Parse an unsigned JSON integer (digit run, no redundant leading zero).
Inputs whose number continues with a fraction or exponent are outside the
model and fail. -/
def scanJsonNat (cs : List Char) : Option (Nat × List Char) :=
  let ds := cs.takeWhile Char.isDigit
  let rest := cs.drop ds.length
  match ds with
  | [] => none
  | d :: tail =>
    if d = '0' ∧ tail ≠ [] then none
    else
      match rest with
      | '.' :: _ => none
      | 'e' :: _ => none
      | 'E' :: _ => none
      | _ => some (ds.foldl (fun n c => n * 10 + (c.toNat - '0'.toNat)) 0, rest)

mutual

/-- Recursive-descent model of `json.loads` restricted to null, booleans,
integers, strings, arrays and objects (fractional numbers are outside the
model).  Fuel only bounds recursion; it is chosen large enough in
`jsonLoads` never to run out on an accepted input. -/
def parseJsonVal : Nat → List Char → Option (PyVal × List Char)
  | 0, _ => none
  | fuel + 1, cs =>
    match skipWs cs with
    | 'n' :: 'u' :: 'l' :: 'l' :: rest => some (.pyNone, rest)
    | 't' :: 'r' :: 'u' :: 'e' :: rest => some (.pyBool true, rest)
    | 'f' :: 'a' :: 'l' :: 's' :: 'e' :: rest => some (.pyBool false, rest)
    | '"' :: rest =>
        (scanJsonStr (rest.length + 1) [] rest).map (fun p => (.pyStr p.1, p.2))
    | '[' :: rest =>
        (match skipWs rest with
         | ']' :: r => some (.pyList [], r)
         | r => parseJsonArr fuel r [])
    | '{' :: rest =>
        (match skipWs rest with
         | '}' :: r => some (.pyDict [], r)
         | r => parseJsonObj fuel r [])
    | '-' :: rest => (scanJsonNat rest).map (fun p => (.pyInt (-(p.1 : Int)), p.2))
    | cs' => (scanJsonNat cs').map (fun p => (.pyInt (p.1 : Int), p.2))

/-- Elements of a JSON array after the opening bracket (non-empty case). -/
def parseJsonArr : Nat → List Char → List PyVal → Option (PyVal × List Char)
  | 0, _, _ => none
  | fuel + 1, cs, acc =>
    match parseJsonVal fuel cs with
    | none => none
    | some (v, rest) =>
      match skipWs rest with
      | ',' :: r => parseJsonArr fuel r (acc ++ [v])
      | ']' :: r => some (.pyList (acc ++ [v]), r)
      | _ => none

/-- Members of a JSON object after the opening brace (non-empty case).
A repeated key keeps its first position and its last value, the Python
dict behaviour of `json.loads`. -/
def parseJsonObj : Nat → List Char → List (String × PyVal) →
    Option (PyVal × List Char)
  | 0, _, _ => none
  | fuel + 1, cs, acc =>
    match skipWs cs with
    | '"' :: rest =>
      match scanJsonStr (rest.length + 1) [] rest with
      | none => none
      | some (key, rest2) =>
        match skipWs rest2 with
        | ':' :: rest3 =>
          match parseJsonVal fuel rest3 with
          | none => none
          | some (v, rest4) =>
            match skipWs rest4 with
            | ',' :: r => parseJsonObj fuel r (dictSet acc key v)
            | '}' :: r => some (.pyDict (dictSet acc key v), r)
            | _ => none
        | _ => none
    | _ => none

end

/-- Model of Python `json.loads` on a whole string: one JSON value with
nothing but whitespace around it. -/
def jsonLoads (s : String) : Option PyVal :=
  let cs := s.toList
  match parseJsonVal (2 * cs.length + 2) cs with
  | some (v, rest) => if skipWs rest = [] then some v else none
  | none => none

/-- The backquote character, written by code point to keep it out of the
source text. -/
def backquoteChar : Char := Char.ofNat 96

/-- Python regex `\s` (ASCII range), as used by `re` in the code-fence
pattern. -/
def isReWs (c : Char) : Bool :=
  c = ' ' || c = '\t' || c = '\n' || c = '\r' || c = '\x0c' || c = '\x0b'

/-- Does the list start with a three-backquote fence? -/
def startsWithFence (cs : List Char) : Bool :=
  match cs with
  | a :: b :: c :: _ => a = backquoteChar && b = backquoteChar && c = backquoteChar
  | _ => false

/-- Lazy search for the group's closing brace: the regex
`(\x7b.*?\x7d)\s*` followed by the fence tries each candidate position in
turn, closing at the first position holding a brace that is followed by
whitespace and the closing fence.  `acc` is the reversed body so far;
returns the captured group including its braces. -/
def findFenceClose : List Char → List Char → Option String
  | _, [] => none
  | acc, c :: rest =>
    if c = '}' ∧ startsWithFence (rest.dropWhile isReWs) then
      some (String.mk ('{' :: (acc.reverse ++ ['}'])))
    else findFenceClose (c :: acc) rest

/-- Try the code-fence pattern anchored at the head of `cs`: the literal
fence, an optional literal `json` tag, whitespace, then the lazily
captured brace group closed by whitespace and a closing fence.  This is
the behaviour of the regex at one start position; `(?:json)?` and the two
`\s*` are deterministic here because a surviving backtrack would have to
match `\x7b` or a backquote against a character that cannot be one. -/
def matchFenceAt (cs : List Char) : Option String :=
  match cs with
  | a :: b :: c :: rest =>
    if a = backquoteChar ∧ b = backquoteChar ∧ c = backquoteChar then
      let r := if ['j', 's', 'o', 'n'].isPrefixOf rest then rest.drop 4 else rest
      match r.dropWhile isReWs with
      | '{' :: body => findFenceClose [] body
      | _ => none
    else none
  | _ => none

/-- `re.search` of the code-fence pattern: leftmost start position at
which the pattern matches (groq_client.py line 114-115). -/
def fenceSearch : List Char → Option String
  | [] => none
  | c :: rest =>
    match matchFenceAt (c :: rest) with
    | some s => some s
    | none => fenceSearch rest

/-- `re.search(r'\x7b.*\x7d', text, re.DOTALL)` (groq_client.py line 125):
with a greedy dot this matches from the first opening brace through the
last closing brace, provided the latter comes after the former. -/
def braceSpan (s : String) : Option String :=
  let cs := s.toList
  match cs.findIdx? (fun c => c = '{'), cs.reverse.findIdx? (fun c => c = '}') with
  | some i, some jr =>
    let j := cs.length - 1 - jr
    if i < j then some (String.mk ((cs.drop i).take (j - i + 1))) else none
  | _, _ => none

/-- Failure of `parse_llm_response`: the `ValueError("No valid JSON found
in LLM response")` raised when every extraction strategy fails. -/
inductive ParseFailure where
  | noValidJson
  deriving Repr, DecidableEq

/-- Model of `GroqClient.parse_llm_response` (groq_client.py lines
106-135).  In source order: direct `json.loads`; on failure, the fenced
code block's captured group, whose parse failure falls through; finally
the first-brace-to-last-brace span, whose absence or parse failure raises. -/
def parseLlmResponse (s : String) : Except ParseFailure PyVal :=
  match jsonLoads s with
  | some v => .ok v
  | none =>
    let fenced :=
      match fenceSearch s.toList with
      | some jstr => jsonLoads jstr
      | none => none
    match fenced with
    | some v => .ok v
    | none =>
      match braceSpan s with
      | some jstr =>
        match jsonLoads jstr with
        | some v => .ok v
        | none => .error .noValidJson
      | none => .error .noValidJson

/-! ## Post-parse analysis tail shared by `analyze_aggregate_sentiment`
and `analyze_individual_sentiment` -/

/-- The literal marker the prompt instructs the model to put in the
rationale. -/
def insufficientMarker : String := "Insufficient Data"

/-- Contiguous occurrence of `needle` in `hay`. -/
def listContains (needle : List Char) : List Char → Bool
  | [] => needle.isPrefixOf []
  | c :: rest => needle.isPrefixOf (c :: rest) || listContains needle rest

/-- Python substring test `needle in hay`. -/
def strContains (needle hay : String) : Bool :=
  listContains needle.toList hay.toList

/-- Terminal outcomes of one analysis call after the LLM responded. -/
inductive AnalysisError where
  | insufficientData
  | validation (e : ValidationError)
  | parsing
  | typeError
  | attributeError
  deriving Repr

/-- Model of the shared tail of `analyze_aggregate_sentiment` (lines
232-245) and `analyze_individual_sentiment` (lines 292-305): parse the
raw response; if `"Insufficient Data" in result.get('rationale', '')`
then raise `InsufficientDataError`; only then run `_validate_result`.
Non-dict parses raise `AttributeError` at `.get`, and `in` applied to a
non-container rationale raises `TypeError`, both modelled as their own
errors. -/
def analyzeResponse (responseTxt : String) :
    Except AnalysisError (List (String × PyVal)) :=
  match parseLlmResponse responseTxt with
  | .error _ => .error .parsing
  | .ok (.pyDict result) =>
    let marker : Option Bool :=
      match dictGetD result "rationale" (.pyStr "") with
      | .pyStr s => some (strContains insufficientMarker s)
      | .pyList xs => some (xs.any (fun v => v == .pyStr insufficientMarker))
      | .pyDict kvs => some (kvs.any (fun kv => kv.1 == insufficientMarker))
      | _ => none
    match marker with
    | none => .error .typeError
    | some true => .error .insufficientData
    | some false =>
      match validateResult result with
      | .ok r => .ok r
      | .error e => .error (.validation e)
  | .ok _ => .error .attributeError

/-! ## Settings (src/src/config/settings.py, default values) -/

namespace Settings

/-- `MAX_ARTICLES_PER_TICKER` default. -/
def MAX_ARTICLES_PER_TICKER : Nat := 2

/-- `MAX_RETRIES` default (tenacity attempt bound in `fetch_company_news`). -/
def MAX_RETRIES : Nat := 5

/-- `RETRY_MIN_WAIT` default, seconds. -/
def RETRY_MIN_WAIT : Nat := 2

/-- `RETRY_MAX_WAIT` default, seconds. -/
def RETRY_MAX_WAIT : Nat := 30

/-- `DEFAULT_LOOKBACK_HOURS` default. -/
def DEFAULT_LOOKBACK_HOURS : Nat := 24

/-- `WEEKEND_LOOKBACK_HOURS` default. -/
def WEEKEND_LOOKBACK_HOURS : Nat := 72

/-- `MAX_SUMMARY_LENGTH` default. -/
def MAX_SUMMARY_LENGTH : Nat := 200

end Settings

/-! ## FinnhubClient (src/src/data/finnhub_client.py) -/

/-- A news article as it flows through `FinnhubClient` and on to
`GroqClient`: the fields the code reads. -/
structure Article where
  headline : String
  summary : String
  source : String
  deriving Repr, DecidableEq

/-- Generic association-list lookup, the model of reading a Python dict. -/
def alistGet {α : Type} : List (String × α) → String → Option α
  | [], _ => none
  | (k', v) :: rest, k => if k' = k then some v else alistGet rest k

/-- Generic association-list assignment `d[k] = v`, the model of writing a
Python dict: update the existing binding in place, or append. -/
def alistSet {α : Type} : List (String × α) → String → α → List (String × α)
  | [], k, v => [(k, v)]
  | (k', v') :: rest, k, v =>
      if k' = k then (k', v) :: rest else (k', v') :: alistSet rest k v

/-- Day of week with the `datetime.weekday()` numbering: Monday = 0 …
Sunday = 6. -/
inductive Weekday where
  | monday | tuesday | wednesday | thursday | friday | saturday | sunday
  deriving Repr, DecidableEq

/-- `datetime.weekday()` value of a day. -/
def Weekday.pyWeekday : Weekday → Nat
  | .monday => 0
  | .tuesday => 1
  | .wednesday => 2
  | .thursday => 3
  | .friday => 4
  | .saturday => 5
  | .sunday => 6

/-- The lookback chosen at the top of `batch_fetch_news`
(finnhub_client.py lines 166-171): `today.weekday() in [0, 6]` selects
the weekend lookback, any other day the default.  The result feeds
`from_date = (today - timedelta(hours=lookback_hours))`. -/
def lookbackHours (weekdayNum : Nat) : Nat :=
  if weekdayNum = 0 ∨ weekdayNum = 6 then Settings.WEEKEND_LOOKBACK_HOURS
  else Settings.DEFAULT_LOOKBACK_HOURS

/-- Characters admitted by `TICKER_REGEX = r'^[A-Z0-9.\-\:]\x7b1,12\x7d$'`
(validators.py line 8). -/
def tickerChar (c : Char) : Bool :=
  ('A' ≤ c && c ≤ 'Z') || c.isDigit || c = '.' || c = '-' || c = ':'

/-- Python `str.strip()` on a character list. -/
def stripChars (cs : List Char) : List Char :=
  ((cs.dropWhile isPySpace).reverse.dropWhile isPySpace).reverse

/-- Python `str.upper()` (character-wise, ASCII range). -/
def strUpper (s : String) : String := String.mk (s.toList.map Char.toUpper)

/-- Python `str.lower()` (character-wise, ASCII range). -/
def strLower (s : String) : String := String.mk (s.toList.map Char.toLower)

/-- Model of `is_valid_ticker` (validators.py lines 10-30): non-empty
string, stripped and upper-cased, 1-12 characters from the ticker class. -/
def isValidTicker (t : String) : Bool :=
  if t = "" then false
  else
    let cs := (stripChars t.toList).map Char.toUpper
    decide (1 ≤ cs.length) && decide (cs.length ≤ 12) && cs.all tickerChar

/-- What one HTTP attempt of `fetch_company_news` observes: a response
with a status code (body meaningful on 200), or a raised transport
exception (timeouts, connection failures, JSON decode errors — anything
the final generic `except` would catch). -/
inductive HttpResult where
  | status (code : Nat) (body : List Article)
  | netError
  deriving Repr

/-- How the body of `fetch_company_news` (lines 99-140) treats one HTTP
attempt: 429 raises `RateLimitError`; 401/403 raise
`APIAuthenticationError`; any other non-200 status is logged and returns
`[]`; a transport exception is logged and returns `[]`; 200 returns the
parsed body. -/
inductive FetchOutcome where
  | gotArticles (articles : List Article)
  | rateLimited
  | authFailed
  deriving Repr, DecidableEq

/-- Classify one HTTP attempt, following lines 99-140 in source order. -/
def fetchAttempt : HttpResult → FetchOutcome
  | .status 429 _ => .rateLimited
  | .status 401 _ => .authFailed
  | .status 403 _ => .authFailed
  | .status 200 body => .gotArticles body
  | .status _ _ => .gotArticles []
  | .netError => .gotArticles []

/-- Errors that can escape `fetch_company_news` as a whole:
`APIAuthenticationError`, the `ValueError` for an invalid ticker format,
and tenacity's `RetryError` once `MAX_RETRIES` rate-limited attempts are
exhausted. -/
inductive FetchError where
  | authError
  | invalidTicker
  | retriesExhausted
  deriving Repr, DecidableEq

/-- The tenacity wrapper on `fetch_company_news` (lines 53-61):
`retry_if_exception_type(RateLimitError)` retries only rate limits, and
`stop_after_attempt(MAX_RETRIES)` bounds the attempts, after which
`RetryError` is raised.  `k` numbers the attempt fed to the oracle. -/
def retryFetch : Nat → (Nat → HttpResult) → Nat → Except FetchError (List Article)
  | 0, _, _ => .error .retriesExhausted
  | n + 1, oracle, k =>
    match fetchAttempt (oracle k) with
    | .gotArticles a => .ok a
    | .authFailed => .error .authError
    | .rateLimited => retryFetch n oracle (k + 1)

/-- Model of `fetch_company_news` (lines 62-140) with the network
abstracted into `oracle`: the invalid-ticker `ValueError` is raised before
any attempt, then the retry loop runs. -/
def fetchCompanyNews (ticker : String) (oracle : Nat → HttpResult) :
    Except FetchError (List Article) :=
  if !isValidTicker ticker then .error .invalidTicker
  else retryFetch Settings.MAX_RETRIES oracle 0

/-- How many attempts `fetch_company_news` makes against `oracle` for a
valid ticker: one plus one per leading rate-limited attempt, capped at
`MAX_RETRIES`. -/
def attemptsUsedAux : Nat → (Nat → HttpResult) → Nat → Nat
  | 0, _, _ => 0
  | n + 1, oracle, k =>
    if fetchAttempt (oracle k) = .rateLimited then 1 + attemptsUsedAux n oracle (k + 1)
    else 1

/-- Attempts consumed by the tenacity loop of `fetch_company_news`. -/
def attemptsUsed (oracle : Nat → HttpResult) : Nat :=
  attemptsUsedAux Settings.MAX_RETRIES oracle 0

/-- tenacity `wait_exponential(multiplier=1, min=RETRY_MIN_WAIT,
max=RETRY_MAX_WAIT)`: the wait in seconds after the k-th failed attempt,
`max(min_wait, min(2^k, max_wait))` — the "2s → 4s → 8s → 16s → 30s"
schedule of the method's docstring. -/
def waitExponentialSeconds (attemptNumber : Nat) : Nat :=
  max Settings.RETRY_MIN_WAIT (min (2 ^ attemptNumber) Settings.RETRY_MAX_WAIT)

/-- First `n` characters of a string, Python `s[:n]`. -/
def firstChars (n : Nat) (s : String) : String :=
  String.mk (s.toList.take n)

/-- The relevance test applied to one article by
`_filter_relevant_articles` (lines 253-261): the lowered ticker or
company name occurs in the lowered headline or in the first 100
characters of the lowered summary. -/
def isRelevant (ticker companyName : String) (a : Article) : Bool :=
  let headline := strLower a.headline
  let summary := strLower (firstChars 100 a.summary)
  (strContains (strLower ticker) headline || strContains (strLower ticker) summary) ||
  (strContains (strLower companyName) headline || strContains (strLower companyName) summary)

/-- The company name used for matching (line 249):
`ticker_metadata.get(ticker, ticker) if ticker_metadata else ticker`. -/
def companyNameFor (metadata : Option (List (String × String))) (ticker : String) :
    String :=
  match metadata with
  | some md => (alistGet md ticker).getD ticker
  | none => ticker

/-- Model of `_filter_relevant_articles` (lines 226-266). -/
def filterRelevantArticles (ticker : String) (articles : List Article)
    (metadata : Option (List (String × String))) : List Article :=
  if articles = [] then []
  else articles.filter (isRelevant ticker (companyNameFor metadata ticker))

/-- What one ticker contributes to the batch result when its fetch does
not abort: `None` when the fetch errs non-fatally, returns no articles,
or no article survives the relevance filter; otherwise the relevant
articles capped at `MAX_ARTICLES_PER_TICKER`. -/
def contributionOf (metadata : Option (List (String × String)))
    (t : String) : Except FetchError (List Article) → Option (List Article)
  | .error _ => none
  | .ok articles =>
    if articles = [] then none
    else
      if filterRelevantArticles t articles metadata = [] then none
      else some ((filterRelevantArticles t articles metadata).take
        Settings.MAX_ARTICLES_PER_TICKER)

/-- The contribution of one ticker, computed from its own fetch. -/
def tickerContribution (metadata : Option (List (String × String)))
    (oracles : String → Nat → HttpResult) (t : String) : Option (List Article) :=
  contributionOf metadata t (fetchCompanyNews t (oracles t))

/-- The per-ticker loop of `batch_fetch_news` (lines 179-216):
`APIAuthenticationError` aborts the whole batch, any other exception is
logged and skips the ticker, and only tickers with surviving relevant
articles are written into `news_data`.  The unconditional
`time.sleep(API_CALL_DELAY)` in the `finally` block is timing, not data,
and has no effect on the result. -/
def batchFetchGo (metadata : Option (List (String × String)))
    (oracles : String → Nat → HttpResult) :
    List String → List (String × List Article) →
    Except FetchError (List (String × List Article))
  | [], acc => .ok acc
  | t :: rest, acc =>
    match fetchCompanyNews t (oracles t) with
    | .error .authError => .error .authError
    | .error _ => batchFetchGo metadata oracles rest acc
    | .ok articles =>
      if articles = [] then batchFetchGo metadata oracles rest acc
      else
        if filterRelevantArticles t articles metadata = [] then
          batchFetchGo metadata oracles rest acc
        else
          batchFetchGo metadata oracles rest
            (alistSet acc t ((filterRelevantArticles t articles metadata).take
              Settings.MAX_ARTICLES_PER_TICKER))

/-- Model of `batch_fetch_news` (lines 142-224), network abstracted into
`oracles`.  Dates derived from `lookbackHours` parameterize only the HTTP
request itself, which the oracle absorbs. -/
def batchFetchNews (tickers : List String)
    (metadata : Option (List (String × String)))
    (oracles : String → Nat → HttpResult) :
    Except FetchError (List (String × List Article)) :=
  batchFetchGo metadata oracles tickers []

/-! ## GroqClient article preparation (summary truncation) -/

/-- An article as prepared for the aggregate prompt, with its source
ticker and sector tag attached. -/
structure TaggedArticle where
  ticker : String
  sector : String
  headline : String
  summary : String
  source : String
  deriving Repr, DecidableEq

/-- The article-preparation loop of `analyze_aggregate_sentiment`
(groq_client.py lines 196-212): flatten the per-ticker news, attach the
sector (`ticker_sectors.get(ticker, "Unknown")`), and truncate each
summary to `MAX_SUMMARY_LENGTH`. -/
def prepareAggregateArticles (tickerNews : List (String × List Article))
    (tickerSectors : List (String × String)) : List TaggedArticle :=
  tickerNews.flatMap (fun p =>
    let sector := (alistGet tickerSectors p.1).getD "Unknown"
    p.2.map (fun a =>
      { ticker := p.1
        sector := sector
        headline := a.headline
        summary := firstChars Settings.MAX_SUMMARY_LENGTH a.summary
        source := a.source }))

/-- The truncation loop of `analyze_individual_sentiment` (lines
275-281). -/
def prepareIndividualArticles (articles : List Article) : List Article :=
  articles.map (fun a =>
    { headline := a.headline
      summary := firstChars Settings.MAX_SUMMARY_LENGTH a.summary
      source := a.source })

/-! ## Orchestrator (src/src/main.py) -/

/-- One entry of the error list built by `_analyze_sentiment`:
`{'ticker': ..., 'error': ..., 'type': ...}`. -/
structure ErrorRecord where
  ticker : String
  detail : String
  errType : String
  deriving Repr, DecidableEq

/-- A fund target: its symbol and its holdings dict (ticker → sector, in
insertion order), as returned by `get_fund_holdings`. -/
structure Fund where
  symbol : String
  holdings : List (String × String)
  deriving Repr

/-- What one `analyze_aggregate_sentiment` / `analyze_individual_sentiment`
call does for a target, as observed by `_analyze_sentiment`: a validated
result dict, an `InsufficientDataError`, or any other exception.  For a
generic exception the record stores `_format_error_detail(e)` and
`type(e).__name__`; both are functions of the runtime exception object,
so the oracle carries them as data. -/
inductive AnalyzeOutcome where
  | analyzed (payload : List (String × PyVal))
  | insufficient (msg : String)
  | failed (detail : String) (typeName : String)
  deriving Repr

/-- The detail string `_format_error_detail` produces for an
`InsufficientDataError` (main.py line 244-245): the class has no
`response` attribute, is no timeout or connection error and no
`ValueError`/`KeyError`, so the isinstance check yields this fixed
message. -/
def insufficientDetail : String := "Insufficient data for analysis"

/-- `fund_news`: the holdings of `f` that appear in the fetched news, in
holdings order (main.py lines 272-279). -/
def fundNews (news : List (String × List Article)) (f : Fund) :
    List (String × List Article) :=
  (f.holdings.map Prod.fst).filterMap
    (fun t => (alistGet news t).map (fun a => (t, a)))

/-- Total article count of a news mapping, `sum(len(a) for a in ...)`. -/
def newsTotal (news : List (String × List Article)) : Nat :=
  (news.map (fun p => p.2.length)).sum

/-- The fund loop of `_analyze_sentiment` (main.py lines 270-315),
threading the `results`/`errors`/`no_news_tickers` accumulators. -/
def fundLoop (news : List (String × List Article))
    (o : String → AnalyzeOutcome) :
    List Fund →
    List (List (String × PyVal)) × List ErrorRecord × List String →
    List (List (String × PyVal)) × List ErrorRecord × List String
  | [], acc => acc
  | f :: rest, (res, errs, nonews) =>
    if fundNews news f = [] then
      fundLoop news o rest (res, errs, nonews ++ [f.symbol])
    else
      match o f.symbol with
      | .analyzed payload =>
          fundLoop news o rest
            (res ++ [dictSet payload "news_count" (.pyInt (newsTotal (fundNews news f)))],
             errs, nonews)
      | .insufficient _ =>
          fundLoop news o rest
            (res, errs ++ [⟨f.symbol, insufficientDetail, "InsufficientDataError"⟩],
             nonews)
      | .failed detail ty =>
          fundLoop news o rest (res, errs ++ [⟨f.symbol, detail, ty⟩], nonews)

/-- The individual-stock loop of `_analyze_sentiment` (main.py lines
320-354). -/
def indivLoop (news : List (String × List Article))
    (o : String → AnalyzeOutcome) :
    List String →
    List (List (String × PyVal)) × List ErrorRecord × List String →
    List (List (String × PyVal)) × List ErrorRecord × List String
  | [], acc => acc
  | t :: rest, (res, errs, nonews) =>
    match alistGet news t with
    | none => indivLoop news o rest (res, errs, nonews ++ [t])
    | some articles =>
      match o t with
      | .analyzed payload =>
          indivLoop news o rest
            (res ++ [dictSet payload "news_count" (.pyInt articles.length)], errs, nonews)
      | .insufficient _ =>
          indivLoop news o rest
            (res, errs ++ [⟨t, insufficientDetail, "InsufficientDataError"⟩], nonews)
      | .failed detail ty =>
          indivLoop news o rest (res, errs ++ [⟨t, detail, ty⟩], nonews)

/-- Model of `StockAnalysisPipeline._analyze_sentiment` (main.py lines
250-356): the fund loop followed by the individual-stock loop, starting
from empty accumulators. -/
def analyzeSentiment (funds : List Fund) (individuals : List String)
    (news : List (String × List Article)) (o : String → AnalyzeOutcome) :
    List (List (String × PyVal)) × List ErrorRecord × List String :=
  indivLoop news o individuals (fundLoop news o funds ([], [], []))

/-- A target of one analysis call: a fund or an individually tracked
symbol. -/
inductive Target where
  | fund (f : Fund)
  | indiv (t : String)

/-- The symbol naming a target in results, errors and no-news lists. -/
def Target.name : Target → String
  | .fund f => f.symbol
  | .indiv t => t

/-- The targets of a run, funds first, in source iteration order. -/
def targetsOf (funds : List Fund) (individuals : List String) : List Target :=
  funds.map .fund ++ individuals.map .indiv

/-- Does a target have fetched news (and hence get an analysis call)? -/
def targetHasNews (news : List (String × List Article)) : Target → Bool
  | .fund f => decide (fundNews news f ≠ [])
  | .indiv t => (alistGet news t).isSome

/-- The `news_count` the orchestrator attaches to a successful record. -/
def targetNewsCount (news : List (String × List Article)) : Target → Nat
  | .fund f => newsTotal (fundNews news f)
  | .indiv t => ((alistGet news t).getD []).length

/-- The result record one target contributes, if any. -/
def stepResult (news : List (String × List Article))
    (o : String → AnalyzeOutcome) (tg : Target) :
    Option (List (String × PyVal)) :=
  if targetHasNews news tg then
    match o tg.name with
    | .analyzed payload =>
        some (dictSet payload "news_count" (.pyInt (targetNewsCount news tg)))
    | _ => none
  else none

/-- The error record one target contributes, if any. -/
def stepError (news : List (String × List Article))
    (o : String → AnalyzeOutcome) (tg : Target) : Option ErrorRecord :=
  if targetHasNews news tg then
    match o tg.name with
    | .analyzed _ => none
    | .insufficient _ => some ⟨tg.name, insufficientDetail, "InsufficientDataError"⟩
    | .failed detail ty => some ⟨tg.name, detail, ty⟩
  else none

/-- The no-news entry one target contributes, if any. -/
def stepNoNews (news : List (String × List Article)) (tg : Target) :
    Option String :=
  if targetHasNews news tg then none else some tg.name

/-- Externally visible actions of one pipeline run. -/
inductive Event where
  | marketQuiet
  | llmCall (target : String)
  | persistRecord
  | reportSent
  | criticalAlert
  | errorNote
  deriving Repr, DecidableEq

/-- Model of `StockAnalysisPipeline.run` from the news fetch on (main.py
lines 87-135): on a fetch abort the run alerts and fails; with zero total
articles it sends the market-quiet notification and succeeds; otherwise
it analyzes every target with news, appends every successful record to
the CSV, sends the report, and succeeds iff at least one record was
produced. -/
def runPipeline (funds : List Fund) (individuals : List String)
    (fetched : Except FetchError (List (String × List Article)))
    (o : String → AnalyzeOutcome) : Bool × List Event :=
  match fetched with
  | .error .authError => (false, [.criticalAlert, .criticalAlert])
  | .error _ => (false, [.criticalAlert, .errorNote])
  | .ok nd =>
    if newsTotal nd = 0 then (true, [.marketQuiet])
    else
      let out := analyzeSentiment funds individuals nd o
      let llmEvents := (targetsOf funds individuals).filterMap
        (fun tg => if targetHasNews nd tg then some (Event.llmCall tg.name) else none)
      let persistEvents := out.1.map (fun _ => Event.persistRecord)
      (decide (0 < out.1.length), llmEvents ++ persistEvents ++ [.reportSent])

/-! ## Concrete inputs used by witnesses and counterexamples -/

/-- A 201-character summary, one character over `MAX_SUMMARY_LENGTH`. -/
def longSummary : String := String.mk (List.replicate 201 'x')

/-- A headline-relevant article carrying the over-long summary. -/
def longArticle : Article := ⟨"AAPL rises", longSummary, "wire"⟩

/-- An article relevant to AAPL through the company name. -/
def appleArticle : Article := ⟨"Apple Inc beats estimates", "quarterly results", "wire"⟩

/-- An article relevant to AAPL through the raw symbol. -/
def aaplArticle : Article := ⟨"AAPL rises", "shares up", "wire"⟩

/-- A third relevant article, beyond the per-ticker cap. -/
def aaplArticle2 : Article := ⟨"More AAPL news", "still up", "wire"⟩

/-- A noise article matching neither symbol nor company name in headline
or the first 100 summary characters. -/
def noiseArticle : Article := ⟨"Microsoft Excel tips", "spreadsheet basics", "blog"⟩

/-- Metadata mapping used by the batch-invariant witness. -/
def c8Metadata : Option (List (String × String)) := some [("AAPL", "Apple Inc")]

/-- Oracle used by the batch-invariant witness: four articles for AAPL
(two noise-adjacent, three relevant), noise only for anything else. -/
def c8Oracles (t : String) : Nat → HttpResult := fun _ =>
  if t = "AAPL" then
    .status 200 [appleArticle, noiseArticle, aaplArticle, aaplArticle2]
  else .status 200 [noiseArticle]

/-- An otherwise-valid record whose score coerces to 7. -/
def c1GoodRecord : List (String × PyVal) :=
  [("ticker", .pyStr "AAPL"), ("sentiment_score", .pyStr "7"),
   ("top_insights", .pyList [.pyStr "a", .pyStr "b"]),
   ("rationale", .pyStr "This rationale is long enough.")]

/-- An otherwise-valid record whose score does not coerce. -/
def c1BadRecord : List (String × PyVal) :=
  [("ticker", .pyStr "AAPL"), ("sentiment_score", .pyStr "elevens"),
   ("top_insights", .pyList [.pyStr "a", .pyStr "b"]),
   ("rationale", .pyStr "This rationale is long enough.")]

/-! ## Theorems -/

/-- C7: when `batch_fetch_news` runs on a Sunday or a Monday the lookback
feeding the from-date is the 72-hour `WEEKEND_LOOKBACK_HOURS`; on every
other day of the week it is the 24-hour `DEFAULT_LOOKBACK_HOURS`. -/
theorem lookback_weekend_rule (d : Weekday) :
    lookbackHours d.pyWeekday =
      (if d = .sunday ∨ d = .monday then Settings.WEEKEND_LOOKBACK_HOURS
       else Settings.DEFAULT_LOOKBACK_HOURS) ∧
    Settings.WEEKEND_LOOKBACK_HOURS = 72 ∧ Settings.DEFAULT_LOOKBACK_HOURS = 24 := by
  refine ⟨?_, rfl, rfl⟩
  cases d <;> rfl

/-- C4: the three representations of the same JSON object — bare text,
fenced code block, and noise around a brace span — all extract to the
same parsed object. -/
theorem extraction_three_shapes :
    parseLlmResponse "\x7b\"a\":1\x7d" = .ok (.pyDict [("a", .pyInt 1)]) ∧
    parseLlmResponse "```json\n\x7b\"a\":1\x7d\n```" = .ok (.pyDict [("a", .pyInt 1)]) ∧
    parseLlmResponse "noise \x7b\"a\":1\x7d noise" = .ok (.pyDict [("a", .pyInt 1)]) :=
  ⟨rfl, rfl, rfl⟩

/-- C10: a string that is valid JSON as a whole is returned exactly as
`json.loads` parses it, whatever its top-level type — the direct-parse
branch short-circuits every other strategy. -/
theorem parse_direct_json (s : String) (v : PyVal) (h : jsonLoads s = some v) :
    parseLlmResponse s = .ok v := by
  unfold parseLlmResponse
  rw [h]

/-- Witness for C10 at a JSON array, a non-dict value handed back to
callers that assume a dict. -/
theorem parse_direct_json_witness :
    jsonLoads "[1, 2]" = some (.pyList [.pyInt 1, .pyInt 2]) ∧
    parseLlmResponse "[1, 2]" = .ok (.pyList [.pyInt 1, .pyInt 2]) :=
  ⟨rfl, parse_direct_json "[1, 2]" (.pyList [.pyInt 1, .pyInt 2]) rfl⟩

/-- C2: whenever the extracted record's rationale contains the substring
"Insufficient Data", the shared analysis tail of
`analyze_aggregate_sentiment` and `analyze_individual_sentiment` raises
`InsufficientDataError` — the check runs on the raw extracted rationale
before `_validate_result`, so no validity hypothesis on the rest of the
record is needed. -/
theorem insufficient_data_priority (txt : String)
    (result : List (String × PyVal)) (s : String)
    (hp : parseLlmResponse txt = .ok (.pyDict result))
    (hr : dictGetD result "rationale" (.pyStr "") = .pyStr s)
    (hm : strContains insufficientMarker s = true) :
    analyzeResponse txt = .error .insufficientData := by
  simp only [analyzeResponse, hp, hr, hm]

/-- Witness for C2: a record that would fail schema validation (three
required fields missing) still raises insufficiency first. -/
theorem insufficient_data_priority_witness :
    analyzeResponse "\x7b\"rationale\": \"sparse. Insufficient Data\"\x7d" =
      .error .insufficientData ∧
    validateResult [("rationale", .pyStr "sparse. Insufficient Data")] =
      .error (.missingFields ["ticker", "sentiment_score", "top_insights"]) :=
  ⟨insufficient_data_priority "\x7b\"rationale\": \"sparse. Insufficient Data\"\x7d"
      [("rationale", .pyStr "sparse. Insufficient Data")]
      "sparse. Insufficient Data" rfl rfl rfl,
    rfl⟩

/-- C9: with zero total articles across all fetched symbols the run sends
exactly one market-quiet notification, makes no LLM calls, persists
nothing, sends no results report, and returns success. -/
theorem market_quiet_short_circuit (funds : List Fund) (inds : List String)
    (nd : List (String × List Article)) (o : String → AnalyzeOutcome)
    (h : newsTotal nd = 0) :
    runPipeline funds inds (.ok nd) o = (true, [.marketQuiet]) := by
  simp [runPipeline, h]

/-- Witness for C9: an empty news mapping. -/
theorem market_quiet_short_circuit_witness :
    runPipeline [⟨"FNILX", [("AAPL", "Tech")]⟩] ["UURAF"] (.ok []) (fun _ => .failed "boom" "ValueError") =
      (true, [.marketQuiet]) :=
  market_quiet_short_circuit _ _ _ _ rfl

/-- Taking the first `n` characters bounds the length by `n`. -/
theorem firstChars_length_le (n : Nat) (s : String) :
    (firstChars n s).length ≤ n := by
  unfold firstChars
  show (s.toList.take n).length ≤ n
  simp

/-- C3 counterexample: `batch_fetch_news` performs no summary truncation.
A relevant article whose summary has 201 characters leaves
`FinnhubClient.batch_fetch_news` with its summary intact, exceeding
`MAX_SUMMARY_LENGTH = 200`. -/
theorem batch_summary_not_truncated :
    batchFetchNews ["AAPL"] none (fun _ _ => .status 200 [longArticle]) =
      .ok [("AAPL", [longArticle])] ∧
    longArticle.summary.length = 201 ∧ Settings.MAX_SUMMARY_LENGTH = 200 :=
  ⟨rfl, rfl, rfl⟩

/-- C3 amended: the summary truncation to `MAX_SUMMARY_LENGTH` happens
not in `NewsFetcher` but in `GroqClient`, in the article-preparation
loops of `analyze_aggregate_sentiment` and
`analyze_individual_sentiment`, before any prompt is composed. -/
theorem summaries_truncated_in_groq (tickerNews : List (String × List Article))
    (tickerSectors : List (String × String)) (articles : List Article) :
    (∀ ta ∈ prepareAggregateArticles tickerNews tickerSectors,
        ta.summary.length ≤ Settings.MAX_SUMMARY_LENGTH) ∧
    (∀ a ∈ prepareIndividualArticles articles,
        a.summary.length ≤ Settings.MAX_SUMMARY_LENGTH) := by
  constructor
  · intro ta hta
    simp only [prepareAggregateArticles, List.mem_flatMap, List.mem_map] at hta
    obtain ⟨p, _, a, _, rfl⟩ := hta
    exact firstChars_length_le _ _
  · intro a ha
    simp only [prepareIndividualArticles, List.mem_map] at ha
    obtain ⟨b, _, rfl⟩ := ha
    exact firstChars_length_le _ _

/-- Witness for the amended C3 at a concrete over-long summary. -/
theorem summaries_truncated_in_groq_witness :
    (⟨"AAPL", "Unknown", "AAPL rises", firstChars Settings.MAX_SUMMARY_LENGTH longSummary, "wire"⟩ : TaggedArticle).summary.length ≤
      Settings.MAX_SUMMARY_LENGTH :=
  (summaries_truncated_in_groq [("AAPL", [longArticle])] [] []).1 _ (List.Mem.head _)

/-- A ticker whose fetch raises `APIAuthenticationError` aborts the batch
loop, whatever other tickers surround it. -/
theorem batchGo_auth_aborts (metadata : Option (List (String × String)))
    (oracles : String → Nat → HttpResult) :
    ∀ (tickers : List String) (acc : List (String × List Article)) (t : String),
      t ∈ tickers → fetchCompanyNews t (oracles t) = .error .authError →
      batchFetchGo metadata oracles tickers acc = .error .authError := by
  intro tickers
  induction tickers with
  | nil => intro acc t ht _; exact absurd ht (List.not_mem_nil t)
  | cons u rest ih =>
    intro acc t ht hf
    rcases List.mem_cons.mp ht with rfl | hmem
    · simp only [batchFetchGo, hf]
    · cases hu : fetchCompanyNews u (oracles u) with
      | error e =>
        cases e with
        | authError => simp only [batchFetchGo, hu]
        | invalidTicker =>
            simp only [batchFetchGo, hu]
            exact ih acc t hmem hf
        | retriesExhausted =>
            simp only [batchFetchGo, hu]
            exact ih acc t hmem hf
      | ok articles =>
        simp only [batchFetchGo, hu]
        split
        · exact ih acc t hmem hf
        · split
          · exact ih acc t hmem hf
          · exact ih _ t hmem hf

/-- A ticker whose fetch raises any error other than
`APIAuthenticationError` is merely skipped: the batch result is the one
for the ticker list without it. -/
theorem batchGo_skip (metadata : Option (List (String × String)))
    (oracles : String → Nat → HttpResult) (t : String) (e : FetchError)
    (he : e ≠ .authError) (hf : fetchCompanyNews t (oracles t) = .error e) :
    ∀ (pre post : List String) (acc : List (String × List Article)),
      batchFetchGo metadata oracles (pre ++ t :: post) acc =
        batchFetchGo metadata oracles (pre ++ post) acc := by
  intro pre
  induction pre with
  | nil =>
    intro post acc
    cases e with
    | authError => exact absurd rfl he
    | invalidTicker => simp only [List.nil_append, batchFetchGo, hf]
    | retriesExhausted => simp only [List.nil_append, batchFetchGo, hf]
  | cons u rest ih =>
    intro post acc
    show batchFetchGo metadata oracles (u :: (rest ++ t :: post)) acc =
      batchFetchGo metadata oracles (u :: (rest ++ post)) acc
    cases hu : fetchCompanyNews u (oracles u) with
    | error e' =>
      cases e' with
      | authError => simp only [batchFetchGo, hu]
      | invalidTicker => simp only [batchFetchGo, hu]; exact ih post acc
      | retriesExhausted => simp only [batchFetchGo, hu]; exact ih post acc
    | ok articles =>
      simp only [batchFetchGo, hu]
      split
      · exact ih post acc
      · split
        · exact ih post acc
        · exact ih post _

/-- If the first attempt is not rate limited, the tenacity loop makes
exactly one attempt. -/
theorem attemptsUsed_one (oracle : Nat → HttpResult)
    (h : fetchAttempt (oracle 0) ≠ .rateLimited) : attemptsUsed oracle = 1 := by
  show attemptsUsedAux 5 oracle 0 = 1
  unfold attemptsUsedAux
  simp [h]

/-- The attempt count never exceeds the fuel. -/
theorem attemptsUsedAux_le (oracle : Nat → HttpResult) :
    ∀ n k, attemptsUsedAux n oracle k ≤ n := by
  intro n
  induction n with
  | zero => intro k; simp [attemptsUsedAux]
  | succ m ih =>
    intro k
    unfold attemptsUsedAux
    split
    · have := ih (k + 1); omega
    · omega

/-- Every attempt before the last one was rate limited: nothing else is
ever retried. -/
theorem attemptsUsedAux_rate (oracle : Nat → HttpResult) :
    ∀ n k j, j + 1 < attemptsUsedAux n oracle k →
      fetchAttempt (oracle (k + j)) = .rateLimited := by
  intro n
  induction n with
  | zero => intro k j h; simp [attemptsUsedAux] at h
  | succ m ih =>
    intro k j h
    unfold attemptsUsedAux at h
    by_cases hf : fetchAttempt (oracle k) = .rateLimited
    · rw [if_pos hf] at h
      cases j with
      | zero => simpa using hf
      | succ i =>
        have h2 : i + 1 < attemptsUsedAux m oracle (k + 1) := by omega
        have h3 := ih (k + 1) i h2
        have harith : k + 1 + i = k + (i + 1) := by omega
        rwa [harith] at h3
    · rw [if_neg hf] at h
      exfalso
      omega

/-- C5: during `batch_fetch_news`, an `APIAuthenticationError` on any
one symbol aborts the whole batch; any other per-symbol fetch error only
skips that symbol, leaving the batch over the remaining symbols
unchanged; and in `fetch_company_news` only rate-limit signals are ever
retried, with attempts capped at `MAX_RETRIES` and the exponential
backoff schedule 2s, 4s, 8s, 16s, 30s. -/
theorem batch_fetch_error_policy (metadata : Option (List (String × String)))
    (oracles : String → Nat → HttpResult) :
    (∀ (tickers : List String) (t : String), t ∈ tickers →
        fetchCompanyNews t (oracles t) = .error .authError →
        batchFetchNews tickers metadata oracles = .error .authError) ∧
    (∀ (pre post : List String) (t : String) (e : FetchError),
        e ≠ .authError → fetchCompanyNews t (oracles t) = .error e →
        batchFetchNews (pre ++ t :: post) metadata oracles =
          batchFetchNews (pre ++ post) metadata oracles) ∧
    (∀ oracle : Nat → HttpResult,
        (fetchAttempt (oracle 0) ≠ .rateLimited → attemptsUsed oracle = 1) ∧
        attemptsUsed oracle ≤ Settings.MAX_RETRIES ∧
        ∀ k, k + 1 < attemptsUsed oracle → fetchAttempt (oracle k) = .rateLimited) ∧
    (List.range 5).map (fun k => waitExponentialSeconds (k + 1)) =
      [2, 4, 8, 16, 30] := by
  refine ⟨?_, ?_, ?_, by decide⟩
  · intro tickers t ht hf
    exact batchGo_auth_aborts metadata oracles tickers [] t ht hf
  · intro pre post t e he hf
    exact batchGo_skip metadata oracles t e he hf pre post []
  · intro oracle
    refine ⟨attemptsUsed_one oracle, attemptsUsedAux_le oracle 5 0, ?_⟩
    intro k h
    have h3 := attemptsUsedAux_rate oracle 5 0 k h
    simpa using h3

/-- Witness for C5: a 401 on the only symbol aborts; an invalid-format
symbol is skipped leaving the rest of the batch unchanged; a clean first
attempt is never retried. -/
theorem batch_fetch_error_policy_witness :
    batchFetchNews ["AAPL"] none (fun _ _ => .status 401 []) =
      .error .authError ∧
    batchFetchNews ["BAD TICKER", "AAPL"] none (fun _ _ => .status 500 []) =
      batchFetchNews ["AAPL"] none (fun _ _ => .status 500 []) ∧
    attemptsUsed (fun _ => .status 200 []) = 1 :=
  ⟨(batch_fetch_error_policy none (fun _ _ => .status 401 [])).1
      ["AAPL"] "AAPL" (by simp) rfl,
    (batch_fetch_error_policy none (fun _ _ => .status 500 [])).2.1
      [] ["AAPL"] "BAD TICKER" .invalidTicker (by decide) rfl,
    ((batch_fetch_error_policy none (fun _ _ => .status 500 [])).2.2.1
      (fun _ => .status 200 [])).1 (by decide)⟩

/-- Membership after an association-list assignment: the element was
already present, or it is the new binding. -/
theorem mem_alistSet {α : Type} (l : List (String × α)) (k : String) (v : α)
    (p : String × α) (hp : p ∈ alistSet l k v) : p ∈ l ∨ p = (k, v) := by
  induction l with
  | nil => exact Or.inr (by simpa [alistSet] using hp)
  | cons q rest ih =>
    obtain ⟨k', v'⟩ := q
    by_cases hk : k' = k
    · subst hk
      rw [alistSet, if_pos rfl] at hp
      rcases List.mem_cons.mp hp with rfl | hp
      · exact Or.inr rfl
      · exact Or.inl (List.mem_cons_of_mem _ hp)
    · rw [alistSet, if_neg hk] at hp
      rcases List.mem_cons.mp hp with rfl | hp
      · exact Or.inl (List.mem_cons_self _ _)
      · rcases ih hp with h | h
        · exact Or.inl (List.mem_cons_of_mem _ h)
        · exact Or.inr h

/-- Everything the batch loop returns was in the accumulator already or
is the contribution of its own ticker. -/
theorem batchGo_ok_mem (metadata : Option (List (String × String)))
    (oracles : String → Nat → HttpResult) :
    ∀ (tickers : List String) (acc m : List (String × List Article)),
      batchFetchGo metadata oracles tickers acc = .ok m →
      ∀ p, p ∈ m → p ∈ acc ∨ tickerContribution metadata oracles p.1 = some p.2 := by
  intro tickers
  induction tickers with
  | nil =>
    intro acc m h p hp
    simp only [batchFetchGo, Except.ok.injEq] at h
    subst h
    exact Or.inl hp
  | cons t rest ih =>
    intro acc m h p hp
    cases ht : fetchCompanyNews t (oracles t) with
    | error e =>
      cases e with
      | authError =>
        simp only [batchFetchGo, ht] at h
        exact Except.noConfusion h
      | invalidTicker =>
        simp only [batchFetchGo, ht] at h
        exact ih acc m h p hp
      | retriesExhausted =>
        simp only [batchFetchGo, ht] at h
        exact ih acc m h p hp
    | ok articles =>
      simp only [batchFetchGo, ht] at h
      by_cases ha : articles = []
      · rw [if_pos ha] at h
        exact ih acc m h p hp
      · rw [if_neg ha] at h
        by_cases hr : filterRelevantArticles t articles metadata = []
        · rw [if_pos hr] at h
          exact ih acc m h p hp
        · rw [if_neg hr] at h
          rcases ih _ m h p hp with hmem | hc
          · rcases mem_alistSet acc t _ p hmem with hacc | hpeq
            · exact Or.inl hacc
            · right
              rw [hpeq]
              simp [tickerContribution, contributionOf, ht, ha, hr]
          · exact Or.inr hc

/-- C8: invariant of the mapping `batch_fetch_news` returns — every
symbol present maps to a non-empty list of at most
`MAX_ARTICLES_PER_TICKER` articles, each passing the relevance test
against the symbol or its mapped company name, and a symbol whose fetch
contributes nothing (in particular one with zero relevant articles) is
entirely absent from the mapping. -/
theorem batch_news_invariant (tickers : List String)
    (metadata : Option (List (String × String)))
    (oracles : String → Nat → HttpResult) (m : List (String × List Article))
    (h : batchFetchNews tickers metadata oracles = .ok m) :
    (∀ p ∈ m, p.2 ≠ [] ∧ p.2.length ≤ Settings.MAX_ARTICLES_PER_TICKER ∧
        ∀ a ∈ p.2, isRelevant p.1 (companyNameFor metadata p.1) a = true) ∧
    (∀ t, tickerContribution metadata oracles t = none → t ∉ m.map Prod.fst) := by
  constructor
  · intro p hp
    rcases batchGo_ok_mem metadata oracles tickers [] m h p hp with hacc | hc
    · simp at hacc
    · unfold tickerContribution at hc
      cases ht : fetchCompanyNews p.1 (oracles p.1) with
      | error e => rw [ht] at hc; simp [contributionOf] at hc
      | ok articles =>
        rw [ht] at hc
        simp only [contributionOf] at hc
        by_cases ha : articles = []
        · rw [if_pos ha] at hc; simp at hc
        · rw [if_neg ha] at hc
          by_cases hr : filterRelevantArticles p.1 articles metadata = []
          · rw [if_pos hr] at hc; simp at hc
          · rw [if_neg hr] at hc
            simp only [Option.some.injEq] at hc
            refine ⟨?_, ?_, ?_⟩
            · rw [← hc]
              cases hfr : filterRelevantArticles p.1 articles metadata with
              | nil => exact absurd hfr hr
              | cons x xs => simp [Settings.MAX_ARTICLES_PER_TICKER]
            · rw [← hc]
              simp
            · intro a hain
              rw [← hc] at hain
              have hmem := List.take_subset _ _ hain
              unfold filterRelevantArticles at hmem
              rw [if_neg ha] at hmem
              exact (List.mem_filter.mp hmem).2
  · intro t hnone hmem
    simp only [List.mem_map] at hmem
    obtain ⟨p, hpm, hpt⟩ := hmem
    rcases batchGo_ok_mem metadata oracles tickers [] m h p hpm with hacc | hc
    · simp at hacc
    · rw [hpt, hnone] at hc
      exact Option.noConfusion hc

/-- Witness for C8 at a concrete batch: AAPL keeps its first two relevant
articles (noise filtered, cap applied), MSFT with only a noise article is
absent. -/
theorem batch_news_invariant_witness :
    ([appleArticle, aaplArticle] : List Article) ≠ [] ∧
    ([appleArticle, aaplArticle] : List Article).length ≤
      Settings.MAX_ARTICLES_PER_TICKER ∧
    "MSFT" ∉ ([("AAPL", [appleArticle, aaplArticle])].map
      (Prod.fst (α := String) (β := List Article))) :=
  ⟨((batch_news_invariant ["AAPL", "MSFT"] c8Metadata c8Oracles
        [("AAPL", [appleArticle, aaplArticle])] rfl).1
      ("AAPL", [appleArticle, aaplArticle]) (by simp)).1,
    ((batch_news_invariant ["AAPL", "MSFT"] c8Metadata c8Oracles
        [("AAPL", [appleArticle, aaplArticle])] rfl).1
      ("AAPL", [appleArticle, aaplArticle]) (by simp)).2.1,
    (batch_news_invariant ["AAPL", "MSFT"] c8Metadata c8Oracles
        [("AAPL", [appleArticle, aaplArticle])] rfl).2 "MSFT" rfl⟩

/-- The fund loop appends exactly the per-fund contributions of
`stepResult` / `stepError` / `stepNoNews` to its accumulators. -/
theorem fundLoop_eq (news : List (String × List Article))
    (o : String → AnalyzeOutcome) :
    ∀ (fs : List Fund) (res : List (List (String × PyVal)))
      (errs : List ErrorRecord) (nonews : List String),
      fundLoop news o fs (res, errs, nonews) =
        (res ++ (fs.map Target.fund).filterMap (stepResult news o),
         errs ++ (fs.map Target.fund).filterMap (stepError news o),
         nonews ++ (fs.map Target.fund).filterMap (stepNoNews news)) := by
  intro fs
  induction fs with
  | nil => intro res errs nonews; simp [fundLoop]
  | cons f rest ih =>
    intro res errs nonews
    by_cases hfn : fundNews news f = []
    · simp only [fundLoop, if_pos hfn]
      rw [ih]
      simp [stepResult, stepError, stepNoNews, targetHasNews, hfn, Target.name,
        List.filterMap_cons]
    · cases ho : o f.symbol with
      | analyzed payload =>
        simp only [fundLoop, if_neg hfn, ho]
        rw [ih]
        simp [stepResult, stepError, stepNoNews, targetHasNews, targetNewsCount,
          hfn, ho, Target.name, List.filterMap_cons]
      | insufficient msg =>
        simp only [fundLoop, if_neg hfn, ho]
        rw [ih]
        simp [stepResult, stepError, stepNoNews, targetHasNews, hfn, ho,
          Target.name, List.filterMap_cons]
      | failed d ty =>
        simp only [fundLoop, if_neg hfn, ho]
        rw [ih]
        simp [stepResult, stepError, stepNoNews, targetHasNews, hfn, ho,
          Target.name, List.filterMap_cons]

/-- The individual-stock loop appends exactly the per-symbol
contributions of the step functions to its accumulators. -/
theorem indivLoop_eq (news : List (String × List Article))
    (o : String → AnalyzeOutcome) :
    ∀ (ts : List String) (res : List (List (String × PyVal)))
      (errs : List ErrorRecord) (nonews : List String),
      indivLoop news o ts (res, errs, nonews) =
        (res ++ (ts.map Target.indiv).filterMap (stepResult news o),
         errs ++ (ts.map Target.indiv).filterMap (stepError news o),
         nonews ++ (ts.map Target.indiv).filterMap (stepNoNews news)) := by
  intro ts
  induction ts with
  | nil => intro res errs nonews; simp [indivLoop]
  | cons t rest ih =>
    intro res errs nonews
    cases hn : alistGet news t with
    | none =>
      simp only [indivLoop, hn]
      rw [ih]
      simp [stepResult, stepError, stepNoNews, targetHasNews, hn, Target.name,
        List.filterMap_cons]
    | some articles =>
      cases ho : o t with
      | analyzed payload =>
        simp only [indivLoop, hn, ho]
        rw [ih]
        simp [stepResult, stepError, stepNoNews, targetHasNews, targetNewsCount,
          hn, ho, Target.name, List.filterMap_cons]
      | insufficient msg =>
        simp only [indivLoop, hn, ho]
        rw [ih]
        simp [stepResult, stepError, stepNoNews, targetHasNews, hn, ho,
          Target.name, List.filterMap_cons]
      | failed d ty =>
        simp only [indivLoop, hn, ho]
        rw [ih]
        simp [stepResult, stepError, stepNoNews, targetHasNews, hn, ho,
          Target.name, List.filterMap_cons]

/-- C6: `_analyze_sentiment` is exactly the independent sum of per-target
contributions (so one target's failure cannot disturb any other
target's result), a failing target with news yields exactly one error
record naming it and no result, and a target absent from the fetched
news lands in the no-news list, producing neither an error nor a
result. -/
theorem analyze_failure_isolated (funds : List Fund) (inds : List String)
    (news : List (String × List Article)) (o : String → AnalyzeOutcome) :
    analyzeSentiment funds inds news o =
      ((targetsOf funds inds).filterMap (stepResult news o),
       (targetsOf funds inds).filterMap (stepError news o),
       (targetsOf funds inds).filterMap (stepNoNews news)) ∧
    (∀ tg msg, targetHasNews news tg = true → o tg.name = .insufficient msg →
        stepError news o tg =
          some ⟨tg.name, insufficientDetail, "InsufficientDataError"⟩ ∧
        stepResult news o tg = none) ∧
    (∀ tg d ty, targetHasNews news tg = true → o tg.name = .failed d ty →
        stepError news o tg = some ⟨tg.name, d, ty⟩ ∧
        stepResult news o tg = none) ∧
    (∀ tg, targetHasNews news tg = false →
        stepNoNews news tg = some tg.name ∧ stepError news o tg = none ∧
        stepResult news o tg = none) := by
  refine ⟨?_, ?_, ?_, ?_⟩
  · unfold analyzeSentiment
    rw [fundLoop_eq, indivLoop_eq]
    simp [targetsOf, List.filterMap_append]
  · intro tg msg h ho
    constructor <;> simp [stepError, stepResult, h, ho]
  · intro tg d ty h ho
    constructor <;> simp [stepError, stepResult, h, ho]
  · intro tg h
    refine ⟨?_, ?_, ?_⟩ <;> simp [stepNoNews, stepError, stepResult, h]

/-- Witness for C6: one fund succeeding, one individual symbol failing
with a `ValueError`, one individual symbol without news — the failure
produces exactly one error record and the other targets' outcomes are
untouched. -/
theorem analyze_failure_isolated_witness :
    analyzeSentiment [⟨"FNILX", [("AAPL", "Tech/General")]⟩] ["UURAF", "ZZZZ"]
        [("AAPL", [aaplArticle]), ("UURAF", [aaplArticle])]
        (fun s =>
          if s = "FNILX" then
            .analyzed [("ticker", .pyStr "FNILX"), ("sentiment_score", .pyInt 7)]
          else .failed "LLM returned invalid format - analysis failed" "ValueError") =
      ([[("ticker", .pyStr "FNILX"), ("sentiment_score", .pyInt 7),
          ("news_count", .pyInt 1)]],
       [⟨"UURAF", "LLM returned invalid format - analysis failed", "ValueError"⟩],
       ["ZZZZ"]) :=
  ((analyze_failure_isolated [⟨"FNILX", [("AAPL", "Tech/General")]⟩]
      ["UURAF", "ZZZZ"] [("AAPL", [aaplArticle]), ("UURAF", [aaplArticle])]
      (fun s =>
        if s = "FNILX" then
          .analyzed [("ticker", .pyStr "FNILX"), ("sentiment_score", .pyInt 7)]
        else .failed "LLM returned invalid format - analysis failed" "ValueError")).1).trans
    (by rfl)

/-- Updating one key leaves lookups of any other key unchanged. -/
theorem dictGet_dictSet_ne (kvs : List (String × PyVal)) (k k' : String)
    (v : PyVal) (h : k ≠ k') : dictGet (dictSet kvs k v) k' = dictGet kvs k' := by
  induction kvs with
  | nil => simp [dictSet, dictGet, h]
  | cons q rest ih =>
    obtain ⟨a, b⟩ := q
    by_cases ha : a = k
    · subst ha
      rw [dictSet, if_pos rfl]
      simp [dictGet, h]
    · rw [dictSet, if_neg ha]
      by_cases hak : a = k'
      · simp [dictGet, hak]
      · simp [dictGet, hak, ih]

/-- C1: on a record with all required fields whose `top_insights` is a
non-empty list and whose `rationale` is a string of at least 20
characters, `_validate_result` succeeds exactly when the raw
`sentiment_score`, coerced by `int(...)`, lies in [1, 10] inclusive; a
non-coercible or out-of-range score fails with the offending raw value
carried in the error. -/
theorem score_validation_rule (r : List (String × PyVal))
    (hfields : requiredFields.all (dictHas r) = true)
    (raw : PyVal) (hraw : dictGet r "sentiment_score" = some raw)
    (xs : List PyVal) (hxs : dictGet r "top_insights" = some (.pyList xs))
    (hne : xs ≠ [])
    (srat : String) (hsr : dictGet r "rationale" = some (.pyStr srat))
    (hlen : 20 ≤ srat.length) :
    ((validateResult r).isOk = true ↔
      ∃ n : Int, pyIntCoerce raw = some n ∧ 1 ≤ n ∧ n ≤ 10) ∧
    ((¬∃ n : Int, pyIntCoerce raw = some n ∧ 1 ≤ n ∧ n ≤ 10) →
      validateResult r = .error (.invalidScore (some raw))) := by
  have hmiss : requiredFields.filter (fun f => !dictHas r f) = [] := by
    simp only [requiredFields, List.all_cons, List.all_nil, Bool.and_eq_true,
      and_true] at hfields
    simp [requiredFields, List.filter, hfields.1, hfields.2.1, hfields.2.2]
  have hts : ("sentiment_score" : String) ≠ "top_insights" := by decide
  have hrs : ("sentiment_score" : String) ≠ "rationale" := by decide
  have hir : ("top_insights" : String) ≠ "rationale" := by decide
  simp only [validateResult, hmiss, ne_eq, not_true_eq_false, if_false, hraw,
    Option.getD_some]
  cases hcoe : pyIntCoerce raw with
  | none =>
    dsimp only
    constructor
    · constructor
      · intro hok; exact absurd hok (by simp [Except.isOk, Except.toBool])
      · rintro ⟨n', hn', -⟩; exact Option.noConfusion hn'
    · intro _; rfl
  | some n =>
    dsimp only
    by_cases hrange : 1 ≤ n ∧ n ≤ 10
    · rw [if_neg (by simp [hrange])]
      simp only [dictGetD]
      rw [dictGet_dictSet_ne r "sentiment_score" "top_insights" _ hts, hxs]
      simp only [Option.getD_some]
      rw [if_neg (by simp [List.length_eq_zero, hne])]
      rw [dictGet_dictSet_ne _ "top_insights" "rationale" _ hir,
        dictGet_dictSet_ne r "sentiment_score" "rationale" _ hrs, hsr]
      simp only [Option.getD_some]
      rw [if_neg (by omega)]
      constructor
      · constructor
        · intro _; exact ⟨n, rfl, hrange⟩
        · intro _; rfl
      · intro hno
        exact absurd ⟨n, rfl, hrange⟩ hno
    · rw [if_pos (by simp [hrange])]
      constructor
      · constructor
        · intro hok; exact absurd hok (by simp [Except.isOk, Except.toBool])
        · rintro ⟨n', hn', hr'⟩
          rw [Option.some.injEq] at hn'
          subst hn'
          exact absurd hr' hrange
      · intro _; rfl

/-- Witness for C1: a coercible in-range score string "7" validates; the
non-coercible "elevens" fails carrying the raw value. -/
theorem score_validation_rule_witness :
    (validateResult c1GoodRecord).isOk = true ∧
    validateResult c1BadRecord =
      .error (.invalidScore (some (.pyStr "elevens"))) :=
  ⟨(score_validation_rule c1GoodRecord rfl (.pyStr "7") rfl
      [.pyStr "a", .pyStr "b"] rfl (by simp)
      "This rationale is long enough." rfl (by decide)).1.mpr
      ⟨7, rfl, by decide, by decide⟩,
    (score_validation_rule c1BadRecord rfl (.pyStr "elevens") rfl
      [.pyStr "a", .pyStr "b"] rfl (by simp)
      "This rationale is long enough." rfl (by decide)).2
      (by
        rintro ⟨n, hn, -⟩
        rw [show pyIntCoerce (.pyStr "elevens") = none from rfl] at hn
        exact Option.noConfusion hn)⟩

